import Mathlib

/-!
Verification development for the vrzaq run-orchestration core.

The definitions below are a shallow embedding of the repository's code:

* `validateFile`, `tryBody`, `stepFile`, `runFiles`, `processFilesModel`
  embed `processFiles` and its helpers from `src/core.js`
  (the later, state-encapsulated edition of the module, lines 457-636 of
  the concatenated file: `validateFile`, `saveRecoveryFile`, the per-file
  task body with its try/catch/finally, and the surrounding loop).
* `loadCacheModel` embeds `loadCache` (core.js lines 336-358).
* `restoreBackupModel` embeds `restoreBackup` from the backup manager
  (src/unnamed/part_006 lines 136-166).
* `submitFile` embeds the per-path lock table of
  `_processFileWithRobustness` (src/unnamed/part_002 lines 154-194).
* `emitDispatch` embeds Node's synchronous `EventEmitter` dispatch used by
  the extension bus (listeners invoked in registration order on a shared
  mutable payload object).

External collaborators are opaque parameters, exactly as the spec scopes
them: the content hasher (`hashF`), the formatter (`formatF`, fallible),
the JSON and JS syntax validators (`jsonP`, `acornP`), and the set of
registered extension listeners (`emitter`, a map from an emitted event to
either unit or a thrown error, modelling that a listener may throw).
The filesystem is a map from absolute path to file content and mtime;
`stat.size` is the content length.  Every filesystem and event effect is
recorded in an `Op` trace so that ordering and absence of effects can be
stated.  Tasks run sequentially in submission order: in the source each
task's shared-state mutations happen synchronously between awaits on the
single event loop, and each task only reads and writes its own path's
filesystem and cache entries, so this sequentialization is faithful.
-/

/-- A JavaScript error value: class name, message, and the optional
`code`/`path` fields Node sets on filesystem errors. -/
structure JsError where
  name : String
  message : String
  code : Option String := none
  path : Option String := none
deriving Repr, DecidableEq

/-- One file on disk: its content string and its stat mtime (`mtimeMs`).
The stat size is the content length. -/
structure FileInfo where
  content : String
  mtime : Nat
deriving Repr, DecidableEq

/-- One entry of the cache's `files` map: `hash` is `none` when the stored
value was JavaScript `undefined` (the empty-file case), and the recorded
`mtimeMs`. -/
structure CacheEntry where
  hash : Option String
  mtime : Nat
deriving Repr, DecidableEq

/-- The configuration fields the embedded code reads. -/
structure Cfg where
  maxFileSize : Nat
  cacheVersion : String
  configHash : String
deriving Repr, DecidableEq

/-- Events emitted by the per-file pipeline, with the payload fields the
source passes. -/
inductive Ev where
  | validateSkip (file : String)
  | validated (file : String) (hash : String) (size : Nat)
  | validateFail (file : String) (reason : String)
  | cacheHit (file : String)
  | cacheMiss (file : String)
  | formatBefore (file : String) (originalContent : String)
  | formatAfter (file : String) (formattedContent : String)
  | verifyStart (file : String)
  | verifySuccess (file : String)
  | recoverySaved (file : String)
  | formatError (file : String) (msg : String)
  | fileProcessed (file : String)
deriving Repr, DecidableEq

/-- Observable effects of a run, in execution order: filesystem stats,
reads and writes, the recovery-file write (to the OS temp directory,
outside the project tree), event emissions, and the final cache save. -/
inductive Op where
  | statOp (file : String)
  | readOp (file : String)
  | writeOp (file : String) (content : String)
  | recoveryWrite (file : String) (content : String)
  | emitOp (e : Ev)
  | saveCacheOp
deriving Repr, DecidableEq

/-- The opaque collaborators of the core: hasher, formatter, syntax
validators, registered extension listeners (an emitted event either
returns or throws), and the clock value a write stamps as the new mtime. -/
structure Env where
  hashF : String → String
  formatF : String → Except JsError String
  jsonP : String → Except JsError Unit
  acornP : String → Except JsError Unit
  emitter : Ev → Except JsError Unit
  now : Nat

/-- Result of `validateFile`: valid with the computed fingerprint
(`none` models the `undefined` hash of an empty file), or invalid with a
reason. -/
inductive VRes where
  | ok (hash : Option String)
  | bad (reason : String)
deriving Repr, DecidableEq

/-- The extension of a path: the characters after the last dot
(`path.extname(p).slice(1)` for ordinary file names). -/
def takeUntilDot : List Char → Option (List Char)
  | [] => none
  | c :: cs =>
    if c = '.' then some []
    else if c = '/' then none
    else match takeUntilDot cs with
      | none => none
      | some r => some (c :: r)

/-- Extension of a file path, without the leading dot. -/
def extOf (p : String) : String :=
  match takeUntilDot p.data.reverse with
  | none => ""
  | some r => String.mk r.reverse

/-- The rejection reason for an oversized file, interpolated as in the
source template string. -/
def tooLargeReason (size limit : Nat) : String :=
  "File too large (" ++ toString size ++ " bytes vs limit " ++ toString limit ++ ")"

/-- Embedding of `validateFile(filePath, stat)` (core.js lines 457-493).
Empty files are valid with an undefined hash; oversized files are
rejected before the function's own read; otherwise the content is read,
fingerprinted and syntax-checked per extension.  The function's outer
try/catch turns a throwing listener into an invalid result whose reason
is the error message.  Returns the result and the trace of the
function's own effects. -/
def validateFile (env : Env) (cfg : Cfg) (file : String) (info : FileInfo) :
    VRes × List Op :=
  if info.content.length = 0 then
    match env.emitter (.validateSkip file) with
    | .ok _ => (.ok none, [.emitOp (.validateSkip file)])
    | .error e => (.bad e.message, [.emitOp (.validateSkip file)])
  else if cfg.maxFileSize < info.content.length then
    (.bad (tooLargeReason info.content.length cfg.maxFileSize), [])
  else
    let content := info.content
    let contentHash := env.hashF content
    let ext := extOf file
    let syn : Except String Unit :=
      if ext = "json" ∨ ext = "jsonc" then
        match env.jsonP content with
        | .ok _ => .ok ()
        | .error e => .error ("Invalid JSON syntax: " ++ e.message)
      else if ext = "js" ∨ ext = "mjs" ∨ ext = "cjs" ∨ ext = "ts" ∨
          ext = "jsx" ∨ ext = "tsx" then
        match env.acornP content with
        | .ok _ => .ok ()
        | .error e => .error ("Invalid JS/TS syntax: " ++ e.message)
      else .ok ()
    match syn with
    | .error r => (.bad r, [.readOp file])
    | .ok _ =>
      match env.emitter (.validated file contentHash info.content.length) with
      | .ok _ => (.ok (some contentHash),
          [.readOp file, .emitOp (.validated file contentHash info.content.length)])
      | .error e => (.bad e.message,
          [.readOp file, .emitOp (.validated file contentHash info.content.length)])

/-- The strengthened cache-hit condition of `processFiles` (core.js lines
557-558): an entry exists and both its stored hash and its stored mtime
equal the current values (`cacheEntry && cacheEntry.hash === hash &&
cacheEntry.mtime === fileStat.mtimeMs`). -/
def hitB (cE : Option CacheEntry) (h : Option String) (m : Nat) : Bool :=
  match cE with
  | some ce => ce.hash == h && ce.mtime == m
  | none => false

/-- Result of the try block of one per-file task: counter increments,
error-list entries, the file's resulting filesystem and cache entries,
the effect trace, the `originalContent` local (set once the initial read
succeeds), and the error escaping the try block, if any. -/
structure BodyOut where
  formattedC : Nat := 0
  skippedC : Nat := 0
  unchangedC : Nat := 0
  invalidC : Nat := 0
  errs : List (String × JsError) := []
  entry : Option FileInfo := none
  centry : Option CacheEntry := none
  trace : List Op := []
  originalContent : Option String := none
  thrown : Option JsError := none
deriving Repr, DecidableEq

/-- The Node `ENOENT` error thrown when `fs.stat` misses. -/
def enoentStat (file : String) : JsError :=
  { name := "Error",
    message := "ENOENT: no such file or directory, stat " ++ file,
    code := some "ENOENT", path := some file }

/-- Embedding of the try block of the per-file task in `processFiles`
(core.js lines 542-612): stat, read, validate, cache check with both
fingerprint and mtime, dry-run short-circuit, format, write, readback
verification and cache update.  `fsE`/`cE` are the file's current
filesystem and cache entries; the task touches no other path. -/
def tryBody (env : Env) (cfg : Cfg) (file : String) (fsE : Option FileInfo)
    (cE : Option CacheEntry) (dryRun : Bool) : BodyOut :=
  match fsE with
  | none =>
      { entry := none, centry := cE, trace := [.statOp file],
        thrown := some (enoentStat file) }
  | some info =>
    let oc := info.content
    let t0 : List Op := [.statOp file, .readOp file]
    let v := validateFile env cfg file info
    let t1 := t0 ++ v.2
    match v.1 with
    | .bad reason =>
      let base : BodyOut :=
        { invalidC := 1, errs := [(file, { name := "Error", message := reason })],
          entry := some info, centry := cE,
          trace := t1 ++ [.emitOp (.validateFail file reason)],
          originalContent := some oc }
      match env.emitter (.validateFail file reason) with
      | .ok _ => base
      | .error e => { base with thrown := some e }
    | .ok h =>
      if hitB cE h info.mtime then
        let base : BodyOut :=
          { skippedC := 1, entry := some info, centry := cE,
            trace := t1 ++ [.emitOp (.cacheHit file)],
            originalContent := some oc }
        match env.emitter (.cacheHit file) with
        | .ok _ => base
        | .error e => { base with thrown := some e }
      else
        let t2 := t1 ++ [Op.emitOp (.cacheMiss file)]
        match env.emitter (.cacheMiss file) with
        | .error e =>
          { entry := some info, centry := cE, trace := t2,
            originalContent := some oc, thrown := some e }
        | .ok _ =>
          if dryRun then
            { formattedC := 1, entry := some info, centry := cE, trace := t2,
              originalContent := some oc }
          else
            let t3 := t2 ++ [Op.emitOp (.formatBefore file oc)]
            match env.emitter (.formatBefore file oc) with
            | .error e =>
              { entry := some info, centry := cE, trace := t3,
                originalContent := some oc, thrown := some e }
            | .ok _ =>
              match env.formatF oc with
              | .error e =>
                { entry := some info, centry := cE, trace := t3,
                  originalContent := some oc, thrown := some e }
              | .ok formatted =>
                let t4 := t3 ++ [Op.emitOp (.formatAfter file formatted)]
                match env.emitter (.formatAfter file formatted) with
                | .error e =>
                  { entry := some info, centry := cE, trace := t4,
                    originalContent := some oc, thrown := some e }
                | .ok _ =>
                  if oc ≠ formatted then
                    let info2 : FileInfo := { content := formatted, mtime := env.now }
                    let t5 := t4 ++ [Op.writeOp file formatted,
                      Op.emitOp (.verifyStart file)]
                    match env.emitter (.verifyStart file) with
                    | .error e =>
                      { entry := some info2, centry := cE, trace := t5,
                        originalContent := some oc, thrown := some e }
                    | .ok _ =>
                      let writtenContent := formatted
                      let newHash := env.hashF formatted
                      let writtenHash := env.hashF writtenContent
                      let t6 := t5 ++ [Op.readOp file]
                      if newHash ≠ writtenHash then
                        { entry := some info2, centry := cE, trace := t6,
                          originalContent := some oc,
                          thrown := some { name := "Error", message :=
                            "Integrity check failed! File on disk differs from formatted content." } }
                      else
                        let t7 := t6 ++ [Op.emitOp (.verifySuccess file)]
                        match env.emitter (.verifySuccess file) with
                        | .error e =>
                          { entry := some info2, centry := cE, trace := t7,
                            originalContent := some oc, thrown := some e }
                        | .ok _ =>
                          { formattedC := 1, entry := some info2,
                            centry := some { hash := some newHash, mtime := info2.mtime },
                            trace := t7 ++ [Op.statOp file],
                            originalContent := some oc }
                  else
                    { unchangedC := 1, entry := some info,
                      centry := some { hash := h, mtime := info.mtime },
                      trace := t4, originalContent := some oc }

/-- Net result of one per-file task after its catch and finally blocks. -/
structure StepOut where
  formattedC : Nat := 0
  skippedC : Nat := 0
  unchangedC : Nat := 0
  invalidC : Nat := 0
  errs : List (String × JsError) := []
  entry : Option FileInfo := none
  centry : Option CacheEntry := none
  trace : List Op := []
  fatal : Option JsError := none
deriving Repr, DecidableEq

/-- Embedding of the catch and finally blocks wrapped around `tryBody`
(core.js lines 614-624): on a thrown error the counters gain an
`invalid`, the error is pushed, `saveRecoveryFile` persists the original
content when it was read and non-empty (JavaScript truthiness of the
string), and `format:error` is emitted; the finally block always emits
`file:processed`.  A listener throwing inside `format:error` or
`file:processed` escapes the task (`fatal`), rejecting the whole
`processFiles` promise. -/
def catchFinally (env : Env) (file : String) (b : BodyOut) : StepOut :=
  let afterCatch : StepOut :=
    match b.thrown with
    | none =>
      { formattedC := b.formattedC, skippedC := b.skippedC,
        unchangedC := b.unchangedC, invalidC := b.invalidC, errs := b.errs,
        entry := b.entry, centry := b.centry, trace := b.trace, fatal := none }
    | some e =>
      let recTrace : List Op :=
        match b.originalContent with
        | some s =>
          if s = "" then []
          else [.recoveryWrite file s, .emitOp (.recoverySaved file)]
        | none => []
      let base : StepOut :=
        { formattedC := b.formattedC, skippedC := b.skippedC,
          unchangedC := b.unchangedC, invalidC := b.invalidC + 1,
          errs := b.errs ++ [(file, e)],
          entry := b.entry, centry := b.centry,
          trace := b.trace ++ recTrace ++ [.emitOp (.formatError file e.message)],
          fatal := none }
      match env.emitter (.formatError file e.message) with
      | .ok _ => base
      | .error e2 => { base with fatal := some e2 }
  match env.emitter (.fileProcessed file) with
  | .ok _ => { afterCatch with
      trace := afterCatch.trace ++ [.emitOp (.fileProcessed file)] }
  | .error e3 => { afterCatch with
      trace := afterCatch.trace ++ [.emitOp (.fileProcessed file)],
      fatal := some e3 }

/-- One complete per-file task of `processFiles`. -/
def stepFile (env : Env) (cfg : Cfg) (file : String) (fsE : Option FileInfo)
    (cE : Option CacheEntry) (dryRun : Bool) : StepOut :=
  catchFinally env file (tryBody env cfg file fsE cE dryRun)

/-- The run counters of `processFiles`. -/
structure RunStats where
  formatted : Nat := 0
  skipped : Nat := 0
  unchanged : Nat := 0
  invalid : Nat := 0
  total : Nat := 0
deriving Repr, DecidableEq

/-- Accumulated result of a `processFiles` run over a file list. -/
structure RunOut where
  stats : RunStats
  errors : List (String × JsError)
  fsOut : String → Option FileInfo
  cacheOut : String → Option CacheEntry
  trace : List Op
  fatal : Option JsError

/-- Pointwise update of a path-indexed map. -/
def upd {α : Type} (m : String → Option α) (p : String) (v : Option α) :
    String → Option α :=
  fun q => if q = p then v else m q

/-- The per-file loop of `processFiles` (core.js lines 536-628): each
file's task reads and writes only that file's filesystem and cache
entries; counters and errors accumulate in submission order; the first
task-escaping error rejects the whole run. -/
def runFiles (env : Env) (cfg : Cfg) (dryRun : Bool) :
    List String → (String → Option FileInfo) → (String → Option CacheEntry) → RunOut
  | [], fs, cache =>
    { stats := {}, errors := [], fsOut := fs, cacheOut := cache,
      trace := [], fatal := none }
  | f :: rest, fs, cache =>
    let o := stepFile env cfg f (fs f) (cache f) dryRun
    let r := runFiles env cfg dryRun rest (upd fs f o.entry) (upd cache f o.centry)
    { stats :=
        { formatted := o.formattedC + r.stats.formatted,
          skipped := o.skippedC + r.stats.skipped,
          unchanged := o.unchangedC + r.stats.unchanged,
          invalid := o.invalidC + r.stats.invalid,
          total := 1 + r.stats.total },
      errors := o.errs ++ r.errors,
      fsOut := r.fsOut, cacheOut := r.cacheOut,
      trace := o.trace ++ r.trace,
      fatal := o.fatal <|> r.fatal }

/-- Embedding of `processFiles(filesIterator, dryRun)` (core.js lines
530-636): run every task, then `saveCache` (reached only when no task
rejected the `Promise.all`). -/
def processFilesModel (env : Env) (cfg : Cfg) (files : List String)
    (fs : String → Option FileInfo) (cache : String → Option CacheEntry)
    (dryRun : Bool) : RunOut :=
  let r := runFiles env cfg dryRun files fs cache
  match r.fatal with
  | none => { r with trace := r.trace ++ [.saveCacheOp] }
  | some _ => r

/-- Cache file contents as parsed from disk. -/
structure DiskCache where
  version : String
  configHash : String
  entries : List (String × CacheEntry)
deriving Repr, DecidableEq

/-- Embedding of `loadCache` (core.js lines 336-358).  The input is the
outcome of reading and JSON-parsing the cache file: an error when the
file is missing or corrupt.  A missing or corrupt file, or a schema
version or configuration fingerprint differing from the session's,
yields a fresh state with an empty entries map; only a full match keeps
the parsed entries.  The returned state is the one every later cache
lookup of the session uses. -/
def loadCacheModel (cfg : Cfg) (disk : Except JsError DiskCache) : DiskCache :=
  match disk with
  | .error _ => { version := cfg.cacheVersion, configHash := cfg.configHash, entries := [] }
  | .ok p =>
    if p.version ≠ cfg.cacheVersion ∨ p.configHash ≠ cfg.configHash then
      { version := cfg.cacheVersion, configHash := cfg.configHash, entries := [] }
    else p

/-- A backup manifest, as the restore path reads it: the recorded archive
fingerprint and the hashing algorithm identifier. -/
structure Manifest where
  archiveHash : String
  algorithm : String
deriving Repr, DecidableEq

/-- The state `restoreBackup` operates on: the parsed manifest if the
manifest file exists, the archive bytes if the archive exists, and the
recursive `readdir` listing of the root directory (plain path strings,
because the source omits `withFileTypes`). -/
structure RestoreWorld where
  manifest : Option Manifest
  archive : Option String
  rootListing : List String
deriving Repr, DecidableEq

/-- Effects of `restoreBackup`, in order. -/
inductive ROp where
  | readManifestOp
  | hashArchiveOp
  | snapshotOp (files : List String)
  | extractOp
  | auditOp (action : String) (status : String)
deriving Repr, DecidableEq

/-- The Node `ENOENT` error of a failed read, carrying the path. -/
def enoentRead (p : String) : JsError :=
  { name := "Error",
    message := "ENOENT: no such file or directory, open " ++ p,
    code := some "ENOENT", path := some p }

/-- Embedding of `allFiles = readdir(rootDir, recursive).filter(f => f.isFile())`
(src/unnamed/part_006 line 150).  The listing entries are strings, so the
first callback invocation throws `TypeError: f.isFile is not a function`;
only an empty listing survives the filter. -/
def filterIsFile (listing : List String) : Except JsError (List String) :=
  match listing with
  | [] => .ok []
  | _ :: _ => .error { name := "TypeError", message := "f.isFile is not a function" }

/-- The `IntegrityMismatchError` thrown on a fingerprint mismatch. -/
def integrityMismatchErr : JsError :=
  { name := "IntegrityMismatchError", message := "Backup corrupt! Integrity hash mismatch." }

/-- The `ManifestNotFoundError` thrown when the manifest file is absent. -/
def manifestNotFoundErr (filename : String) : JsError :=
  { name := "ManifestNotFoundError", message := "Manifest file not found for " ++ filename ++ ". Cannot restore securely." }

/-- Embedding of `restoreBackup(filename)` (src/unnamed/part_006 lines
136-166): read and parse the manifest, recompute the archive fingerprint
with the manifest's algorithm, compare; on mismatch throw the integrity
error; on match list the root tree, snapshot it via `createBackup`,
extract the archive, and audit.  The catch block audits the failure and
maps the manifest-read `ENOENT` to `ManifestNotFoundError`.  Paths are
relative to the backup directory, so the manifest path is
`filename ++ ".manifest.json"`. -/
def restoreBackupModel (hashF : String → String) (w : RestoreWorld)
    (filename : String) : Except JsError Unit × List ROp :=
  let manifestPath := filename ++ ".manifest.json"
  let tryRes : Except JsError Unit × List ROp :=
    match w.manifest with
    | none => (.error (enoentRead manifestPath), [.readManifestOp])
    | some m =>
      match w.archive with
      | none => (.error (enoentRead filename), [.readManifestOp, .hashArchiveOp])
      | some bytes =>
        let currentHash := hashF bytes
        if currentHash ≠ m.archiveHash then
          (.error integrityMismatchErr, [.readManifestOp, .hashArchiveOp])
        else
          match filterIsFile w.rootListing with
          | .error e => (.error e, [.readManifestOp, .hashArchiveOp])
          | .ok allFiles =>
            (.ok (), [.readManifestOp, .hashArchiveOp, .snapshotOp allFiles,
              .extractOp, .auditOp "restoreBackup" "SUCCESS"])
  match tryRes with
  | (.ok _, tr) => (.ok (), tr)
  | (.error e, tr) =>
    let tr2 := tr ++ [ROp.auditOp "restoreBackup" "FAILURE"]
    if e.code = some "ENOENT" ∧ e.path = some manifestPath then
      (.error (manifestNotFoundErr filename), tr2)
    else (.error e, tr2)

/-- State of the per-path lock table of `_processFileWithRobustness`
(src/unnamed/part_002 lines 154-194): the in-flight promises keyed by
path (each identified by the number it was allocated), the next fresh
identifier, and the record of which lock-holder bodies (one underlying
processing execution each) have been started. -/
structure LockState where
  locks : List (String × Nat)
  nextId : Nat
  execs : List (String × Nat)
deriving Repr, DecidableEq

/-- Lookup in the lock table (`this.state.fileLocks.has`/`get`). -/
def lookupLock : List (String × Nat) → String → Option Nat
  | [], _ => none
  | (q, id) :: rest, p => if q = p then some id else lookupLock rest p

/-- Embedding of the lock protocol at the head of
`_processFileWithRobustness`: if the path is locked, return the existing
in-flight promise; otherwise create the processing promise (starting one
underlying execution) and install it in the table before returning.  The
check and the insert run with no intervening suspension, so they are
atomic on the event loop. -/
def submitFile (s : LockState) (p : String) : LockState × Nat :=
  match lookupLock s.locks p with
  | some id => (s, id)
  | none =>
    ({ locks := (p, s.nextId) :: s.locks, nextId := s.nextId + 1,
       execs := s.execs ++ [(p, s.nextId)] }, s.nextId)

/-- Completion of a lock-holder's promise (`finally` on the lock promise):
the path's lock is removed from the table. -/
def completeFile (s : LockState) (p : String) : LockState :=
  { s with locks := s.locks.filter (fun e => e.1 ≠ p) }

/-- The mutable file-data object passed to `format:before` listeners. -/
structure FileData where
  file : String
  content : String
deriving Repr, DecidableEq

/-- Embedding of Node's synchronous `EventEmitter` dispatch for one event:
listeners run in registration order on the same payload object, so each
listener receives the object as mutated by the listeners before it. -/
def emitDispatch (listeners : List (FileData → FileData)) (d : FileData) : FileData :=
  listeners.foldl (fun acc l => l acc) d

/-- Modelled from the spec (section 4.6 and the `format:before` row of the
event table): the content the formatter is expected to receive — the
in-memory content after every registered `format:before` listener has
rewritten it in turn. -/
def specFormatInput (listeners : List (FileData → FileData)) (d : FileData) : String :=
  (emitDispatch listeners d).content

theorem strLen_zero_iff (s : String) : s.length = 0 ↔ s = "" := by
  cases s with
  | mk data =>
    simp only [String.length]
    rw [List.length_eq_zero]
    exact ⟨fun h => by simp [h], fun h => by simpa using congrArg String.data h⟩

theorem stepFile_stat_missing (env : Env) (cfg : Cfg) (file : String)
    (cE : Option CacheEntry) (dryRun : Bool)
    (hE : ∀ ev, env.emitter ev = .ok ()) :
    stepFile env cfg file none cE dryRun =
      { invalidC := 1, errs := [(file, enoentStat file)], entry := none, centry := cE,
        trace := [.statOp file, .emitOp (.formatError file (enoentStat file).message),
          .emitOp (.fileProcessed file)], fatal := none } := by
  simp [stepFile, tryBody, catchFinally, hE]

theorem stepFile_validate_bad (env : Env) (cfg : Cfg) (file : String)
    (info : FileInfo) (cE : Option CacheEntry) (dryRun : Bool) (r : String)
    (hE : ∀ ev, env.emitter ev = .ok ())
    (hv : (validateFile env cfg file info).1 = .bad r) :
    stepFile env cfg file (some info) cE dryRun =
      { invalidC := 1, errs := [(file, { name := "Error", message := r })],
        entry := some info, centry := cE,
        trace := [Op.statOp file, Op.readOp file] ++ (validateFile env cfg file info).2 ++
          [.emitOp (.validateFail file r), .emitOp (.fileProcessed file)],
        fatal := none } := by
  simp [stepFile, tryBody, catchFinally, hE, hv]

theorem stepFile_cache_hit (env : Env) (cfg : Cfg) (file : String)
    (info : FileInfo) (ce : CacheEntry) (dryRun : Bool) (h : Option String)
    (hE : ∀ ev, env.emitter ev = .ok ())
    (hv : (validateFile env cfg file info).1 = .ok h)
    (hh : ce.hash = h) (hm : ce.mtime = info.mtime) :
    stepFile env cfg file (some info) (some ce) dryRun =
      { skippedC := 1, entry := some info, centry := some ce,
        trace := [Op.statOp file, Op.readOp file] ++ (validateFile env cfg file info).2 ++
          [.emitOp (.cacheHit file), .emitOp (.fileProcessed file)],
        fatal := none } := by
  simp [stepFile, tryBody, catchFinally, hitB, hE, hv, hh, hm]

theorem stepFile_dry_miss (env : Env) (cfg : Cfg) (file : String)
    (info : FileInfo) (cE : Option CacheEntry) (h : Option String)
    (hE : ∀ ev, env.emitter ev = .ok ())
    (hv : (validateFile env cfg file info).1 = .ok h)
    (hmiss : hitB cE h info.mtime = false) :
    stepFile env cfg file (some info) cE true =
      { formattedC := 1, entry := some info, centry := cE,
        trace := [Op.statOp file, Op.readOp file] ++ (validateFile env cfg file info).2 ++
          [.emitOp (.cacheMiss file), .emitOp (.fileProcessed file)],
        fatal := none } := by
  simp [stepFile, tryBody, catchFinally, hE, hv, hmiss]

theorem stepFile_format_error (env : Env) (cfg : Cfg) (file : String)
    (info : FileInfo) (cE : Option CacheEntry) (h : Option String) (e : JsError)
    (hE : ∀ ev, env.emitter ev = .ok ())
    (hv : (validateFile env cfg file info).1 = .ok h)
    (hmiss : hitB cE h info.mtime = false)
    (hf : env.formatF info.content = .error e) :
    stepFile env cfg file (some info) cE false =
      { invalidC := 1, errs := [(file, e)], entry := some info, centry := cE,
        trace := [Op.statOp file, Op.readOp file] ++ (validateFile env cfg file info).2 ++
          [.emitOp (.cacheMiss file), .emitOp (.formatBefore file info.content)] ++
          (if info.content = "" then [] else
            [.recoveryWrite file info.content, .emitOp (.recoverySaved file)]) ++
          [.emitOp (.formatError file e.message), .emitOp (.fileProcessed file)],
        fatal := none } := by
  by_cases hne : info.content = ""
  · rw [hne] at hf
    simp [stepFile, tryBody, catchFinally, hE, hv, hmiss, hf, hne]
  · simp [stepFile, tryBody, catchFinally, hE, hv, hmiss, hf, hne]

theorem stepFile_unchanged (env : Env) (cfg : Cfg) (file : String)
    (info : FileInfo) (cE : Option CacheEntry) (h : Option String)
    (hE : ∀ ev, env.emitter ev = .ok ())
    (hv : (validateFile env cfg file info).1 = .ok h)
    (hmiss : hitB cE h info.mtime = false)
    (hf : env.formatF info.content = .ok info.content) :
    stepFile env cfg file (some info) cE false =
      { unchangedC := 1, entry := some info,
        centry := some { hash := h, mtime := info.mtime },
        trace := [Op.statOp file, Op.readOp file] ++ (validateFile env cfg file info).2 ++
          [.emitOp (.cacheMiss file), .emitOp (.formatBefore file info.content),
           .emitOp (.formatAfter file info.content), .emitOp (.fileProcessed file)],
        fatal := none } := by
  simp [stepFile, tryBody, catchFinally, hE, hv, hmiss, hf]

theorem stepFile_formatted (env : Env) (cfg : Cfg) (file : String)
    (info : FileInfo) (cE : Option CacheEntry) (h : Option String) (t : String)
    (hE : ∀ ev, env.emitter ev = .ok ())
    (hv : (validateFile env cfg file info).1 = .ok h)
    (hmiss : hitB cE h info.mtime = false)
    (hf : env.formatF info.content = .ok t)
    (hch : info.content ≠ t) :
    stepFile env cfg file (some info) cE false =
      { formattedC := 1, entry := some { content := t, mtime := env.now },
        centry := some { hash := some (env.hashF t), mtime := env.now },
        trace := [Op.statOp file, Op.readOp file] ++ (validateFile env cfg file info).2 ++
          [.emitOp (.cacheMiss file), .emitOp (.formatBefore file info.content),
           .emitOp (.formatAfter file t), .writeOp file t, .emitOp (.verifyStart file),
           .readOp file, .emitOp (.verifySuccess file), .statOp file,
           .emitOp (.fileProcessed file)],
        fatal := none } := by
  simp [stepFile, tryBody, catchFinally, hE, hv, hmiss, hf, hch]

theorem validateFile_empty (env : Env) (cfg : Cfg) (file : String) (info : FileInfo)
    (hE : ∀ ev, env.emitter ev = .ok ())
    (h0 : info.content = "") :
    validateFile env cfg file info = (.ok none, [.emitOp (.validateSkip file)]) := by
  simp [validateFile, h0, hE]

theorem validateFile_too_large (env : Env) (cfg : Cfg) (file : String) (info : FileInfo)
    (hbig : cfg.maxFileSize < info.content.length) :
    validateFile env cfg file info =
      (.bad (tooLargeReason info.content.length cfg.maxFileSize), []) := by
  have hne : info.content.length ≠ 0 := by omega
  simp [validateFile, hne, hbig]

theorem validateFile_ok (env : Env) (cfg : Cfg) (file : String) (info : FileInfo)
    (hE : ∀ ev, env.emitter ev = .ok ())
    (hne : info.content ≠ "")
    (hsz : info.content.length ≤ cfg.maxFileSize)
    (hj : env.jsonP info.content = .ok ())
    (ha : env.acornP info.content = .ok ()) :
    validateFile env cfg file info =
      (.ok (some (env.hashF info.content)),
        [.readOp file,
         .emitOp (.validated file (env.hashF info.content) info.content.length)]) := by
  have h0 : ¬ info.content.length = 0 := fun h => hne ((strLen_zero_iff _).1 h)
  have hb : ¬ cfg.maxFileSize < info.content.length := by omega
  by_cases hjx : extOf file = "json" ∨ extOf file = "jsonc"
  · simp [validateFile, h0, hb, hjx, hj, hE]
  · by_cases hax : extOf file = "js" ∨ extOf file = "mjs" ∨ extOf file = "cjs" ∨
      extOf file = "ts" ∨ extOf file = "jsx" ∨ extOf file = "tsx"
    · simp [validateFile, h0, hb, hjx, hax, ha, hE]
    · simp [validateFile, h0, hb, hjx, hax, hE]

theorem stepFile_partition (env : Env) (cfg : Cfg) (file : String)
    (fsE : Option FileInfo) (cE : Option CacheEntry) (dryRun : Bool)
    (hE : ∀ ev, env.emitter ev = .ok ()) :
    (stepFile env cfg file fsE cE dryRun).fatal = none ∧
    (stepFile env cfg file fsE cE dryRun).formattedC +
      (stepFile env cfg file fsE cE dryRun).skippedC +
      (stepFile env cfg file fsE cE dryRun).unchangedC +
      (stepFile env cfg file fsE cE dryRun).invalidC = 1 ∧
    (stepFile env cfg file fsE cE dryRun).errs.length =
      (stepFile env cfg file fsE cE dryRun).invalidC := by
  match fsE with
  | none => rw [stepFile_stat_missing env cfg file cE dryRun hE]; simp
  | some info =>
    match hv : (validateFile env cfg file info).1 with
    | .bad r => rw [stepFile_validate_bad env cfg file info cE dryRun r hE hv]; simp
    | .ok h =>
      by_cases hhit : hitB cE h info.mtime = true
      · match cE with
        | none => simp [hitB] at hhit
        | some ce =>
          simp only [hitB, Bool.and_eq_true, beq_iff_eq] at hhit
          rw [stepFile_cache_hit env cfg file info ce dryRun h hE hv hhit.1 hhit.2]
          simp
      · rw [Bool.not_eq_true] at hhit
        match dryRun with
        | true => rw [stepFile_dry_miss env cfg file info cE h hE hv hhit]; simp
        | false =>
          match hf : env.formatF info.content with
          | .error e =>
            rw [stepFile_format_error env cfg file info cE h e hE hv hhit hf]; simp
          | .ok t =>
            by_cases hct : info.content = t
            · rw [← hct] at hf
              rw [stepFile_unchanged env cfg file info cE h hE hv hhit hf]; simp
            · rw [stepFile_formatted env cfg file info cE h t hE hv hhit hf hct]; simp

theorem stepFile_restable (env : Env) (cfg : Cfg) (file : String)
    (hE : ∀ ev, env.emitter ev = .ok ())
    (hFmt : ∀ s t, env.formatF s = .ok t →
      t ≠ "" ∧ t.length ≤ cfg.maxFileSize ∧ env.jsonP t = .ok () ∧ env.acornP t = .ok ())
    (fsE : Option FileInfo) (cE : Option CacheEntry) (o o2 : StepOut)
    (ho : o = stepFile env cfg file fsE cE false)
    (ho2 : o2 = stepFile env cfg file o.entry o.centry false) :
    o2.entry = o.entry ∧ o2.centry = o.centry ∧ o2.formattedC = 0 ∧ o2.unchangedC = 0 ∧
    o2.skippedC = o.formattedC + o.skippedC + o.unchangedC ∧
    o2.invalidC = o.invalidC ∧ o2.fatal = none ∧ o.fatal = none := by
  subst ho
  match fsE with
  | none =>
    have hA := stepFile_stat_missing env cfg file cE false hE
    rw [hA] at ho2 ⊢
    dsimp only at ho2
    rw [hA] at ho2
    subst ho2
    simp
  | some info =>
    match hv : (validateFile env cfg file info).1 with
    | .bad r =>
      have hA := stepFile_validate_bad env cfg file info cE false r hE hv
      rw [hA] at ho2 ⊢
      dsimp only at ho2
      rw [hA] at ho2
      subst ho2
      simp
    | .ok h =>
      by_cases hhit : hitB cE h info.mtime = true
      · match cE with
        | none => simp [hitB] at hhit
        | some ce =>
          simp only [hitB, Bool.and_eq_true, beq_iff_eq] at hhit
          have hA := stepFile_cache_hit env cfg file info ce false h hE hv hhit.1 hhit.2
          rw [hA] at ho2 ⊢
          dsimp only at ho2
          rw [hA] at ho2
          subst ho2
          simp
      · rw [Bool.not_eq_true] at hhit
        rcases hf : env.formatF info.content with e | t
        case neg.error =>
          have hA := stepFile_format_error env cfg file info cE h e hE hv hhit hf
          rw [hA] at ho2 ⊢
          dsimp only at ho2
          rw [hA] at ho2
          subst ho2
          simp
        case neg.ok =>
          by_cases hct : info.content = t
          · have hf2 : env.formatF info.content = .ok info.content := by rw [← hct] at hf; exact hf
            have hA := stepFile_unchanged env cfg file info cE h hE hv hhit hf2
            have hB := stepFile_cache_hit env cfg file info
              { hash := h, mtime := info.mtime } false h hE hv rfl rfl
            rw [hA] at ho2 ⊢
            dsimp only at ho2
            rw [hB] at ho2
            subst ho2
            simp
          · have hA := stepFile_formatted env cfg file info cE h t hE hv hhit hf hct
            obtain ⟨hne2, hsz2, hj2, ha2⟩ := hFmt info.content t hf
            have hv2 := validateFile_ok env cfg file { content := t, mtime := env.now }
              hE hne2 hsz2 hj2 ha2
            have hv2p : (validateFile env cfg file { content := t, mtime := env.now }).1 =
                .ok (some (env.hashF t)) := by rw [hv2]
            have hB := stepFile_cache_hit env cfg file { content := t, mtime := env.now }
              { hash := some (env.hashF t), mtime := env.now } false (some (env.hashF t))
              hE hv2p rfl rfl
            rw [hA] at ho2 ⊢
            dsimp only at ho2
            rw [hB] at ho2
            subst ho2
            simp

theorem runFiles_frame (env : Env) (cfg : Cfg) (dryRun : Bool) :
    ∀ (files : List String) (fs : String → Option FileInfo)
      (cache : String → Option CacheEntry) (q : String), q ∉ files →
      (runFiles env cfg dryRun files fs cache).fsOut q = fs q ∧
      (runFiles env cfg dryRun files fs cache).cacheOut q = cache q := by
  intro files
  induction files with
  | nil => intro fs cache q _; simp [runFiles]
  | cons f rest ih =>
    intro fs cache q hq
    have hqf : q ≠ f := fun h => hq (h ▸ List.mem_cons_self f rest)
    have hqr : q ∉ rest := fun h => hq (List.mem_cons_of_mem f h)
    have := ih (upd fs f (stepFile env cfg f (fs f) (cache f) dryRun).entry)
      (upd cache f (stepFile env cfg f (fs f) (cache f) dryRun).centry) q hqr
    simp only [runFiles]
    refine ⟨?_, ?_⟩
    · rw [this.1]; simp [upd, hqf]
    · rw [this.2]; simp [upd, hqf]

theorem runFiles_congr (env : Env) (cfg : Cfg) (dryRun : Bool) :
    ∀ (files : List String) (fs1 : String → Option FileInfo)
      (cache1 : String → Option CacheEntry) (fs2 : String → Option FileInfo)
      (cache2 : String → Option CacheEntry),
      (∀ q, fs1 q = fs2 q) → (∀ q, cache1 q = cache2 q) →
      (runFiles env cfg dryRun files fs1 cache1).stats =
        (runFiles env cfg dryRun files fs2 cache2).stats ∧
      (runFiles env cfg dryRun files fs1 cache1).errors =
        (runFiles env cfg dryRun files fs2 cache2).errors ∧
      (runFiles env cfg dryRun files fs1 cache1).fatal =
        (runFiles env cfg dryRun files fs2 cache2).fatal ∧
      (∀ q, (runFiles env cfg dryRun files fs1 cache1).fsOut q =
        (runFiles env cfg dryRun files fs2 cache2).fsOut q) ∧
      (∀ q, (runFiles env cfg dryRun files fs1 cache1).cacheOut q =
        (runFiles env cfg dryRun files fs2 cache2).cacheOut q) := by
  intro files
  induction files with
  | nil =>
    intro fs1 cache1 fs2 cache2 hfs hch
    exact ⟨rfl, rfl, rfl, hfs, hch⟩
  | cons f rest ih =>
    intro fs1 cache1 fs2 cache2 hfs hch
    have hstep : stepFile env cfg f (fs1 f) (cache1 f) dryRun =
        stepFile env cfg f (fs2 f) (cache2 f) dryRun := by rw [hfs f, hch f]
    have hup1 : ∀ q, upd fs1 f (stepFile env cfg f (fs1 f) (cache1 f) dryRun).entry q =
        upd fs2 f (stepFile env cfg f (fs2 f) (cache2 f) dryRun).entry q := by
      intro q; simp only [upd]; rw [hstep, hfs q]
    have hup2 : ∀ q, upd cache1 f (stepFile env cfg f (fs1 f) (cache1 f) dryRun).centry q =
        upd cache2 f (stepFile env cfg f (fs2 f) (cache2 f) dryRun).centry q := by
      intro q; simp only [upd]; rw [hstep, hch q]
    have := ih (upd fs1 f (stepFile env cfg f (fs1 f) (cache1 f) dryRun).entry)
      (upd cache1 f (stepFile env cfg f (fs1 f) (cache1 f) dryRun).centry)
      (upd fs2 f (stepFile env cfg f (fs2 f) (cache2 f) dryRun).entry)
      (upd cache2 f (stepFile env cfg f (fs2 f) (cache2 f) dryRun).centry)
      hup1 hup2
    simp only [runFiles]
    refine ⟨?_, ?_, ?_, ?_, ?_⟩
    · rw [this.1, hstep]
    · rw [this.2.1, hstep]
    · rw [this.2.2.1, hstep]
    · exact this.2.2.2.1
    · exact this.2.2.2.2

theorem runFiles_partition (env : Env) (cfg : Cfg) (dryRun : Bool)
    (hE : ∀ ev, env.emitter ev = .ok ()) :
    ∀ (files : List String) (fs : String → Option FileInfo)
      (cache : String → Option CacheEntry),
      (runFiles env cfg dryRun files fs cache).fatal = none ∧
      (runFiles env cfg dryRun files fs cache).stats.formatted +
        (runFiles env cfg dryRun files fs cache).stats.skipped +
        (runFiles env cfg dryRun files fs cache).stats.unchanged +
        (runFiles env cfg dryRun files fs cache).stats.invalid =
        (runFiles env cfg dryRun files fs cache).stats.total ∧
      (runFiles env cfg dryRun files fs cache).errors.length =
        (runFiles env cfg dryRun files fs cache).stats.invalid := by
  intro files
  induction files with
  | nil => intro fs cache; simp [runFiles]
  | cons f rest ih =>
    intro fs cache
    obtain ⟨hsf, hsp, hse⟩ := stepFile_partition env cfg f (fs f) (cache f) dryRun hE
    obtain ⟨hrf, hrp, hre⟩ := ih (upd fs f (stepFile env cfg f (fs f) (cache f) dryRun).entry)
      (upd cache f (stepFile env cfg f (fs f) (cache f) dryRun).centry)
    simp only [runFiles]
    refine ⟨?_, ?_, ?_⟩
    · rw [hsf, hrf]; rfl
    · dsimp only; omega
    · dsimp only; rw [List.length_append]; omega

theorem runFiles_idem (env : Env) (cfg : Cfg)
    (hE : ∀ ev, env.emitter ev = .ok ())
    (hFmt : ∀ s t, env.formatF s = .ok t →
      t ≠ "" ∧ t.length ≤ cfg.maxFileSize ∧ env.jsonP t = .ok () ∧ env.acornP t = .ok ()) :
    ∀ (files : List String), files.Nodup →
    ∀ (fs : String → Option FileInfo) (cache : String → Option CacheEntry)
      (r1 r2 : RunOut),
      r1 = runFiles env cfg false files fs cache →
      r2 = runFiles env cfg false files r1.fsOut r1.cacheOut →
      r1.fatal = none ∧ r2.fatal = none ∧
      r2.stats.formatted = 0 ∧ r2.stats.unchanged = 0 ∧
      r2.stats.skipped = r1.stats.formatted + r1.stats.skipped + r1.stats.unchanged ∧
      r2.stats.invalid = r1.stats.invalid ∧ r2.stats.total = r1.stats.total ∧
      (∀ q, r2.fsOut q = r1.fsOut q) ∧ (∀ q, r2.cacheOut q = r1.cacheOut q) := by
  intro files
  induction files with
  | nil =>
    rintro _ fs cache r1 r2 rfl rfl
    simp [runFiles]
  | cons f rest ih =>
    rintro hnd fs cache r1 r2 rfl rfl
    obtain ⟨hf1, hnd2⟩ := List.nodup_cons.mp hnd
    obtain ⟨o, ho⟩ : ∃ o, o = stepFile env cfg f (fs f) (cache f) false := ⟨_, rfl⟩
    obtain ⟨fs1, hfs1⟩ : ∃ g, g = upd fs f o.entry := ⟨_, rfl⟩
    obtain ⟨c1, hc1⟩ : ∃ g, g = upd cache f o.centry := ⟨_, rfl⟩
    obtain ⟨s1, hs1⟩ : ∃ s, s = runFiles env cfg false rest fs1 c1 := ⟨_, rfl⟩
    simp only [runFiles]
    rw [← ho, ← hfs1, ← hc1, ← hs1]
    obtain ⟨hfrF, hcrF⟩ := runFiles_frame env cfg false rest fs1 c1 f hf1
    have hsf : s1.fsOut f = o.entry := by
      rw [hs1, hfrF, hfs1]; simp [upd]
    have hsc : s1.cacheOut f = o.centry := by
      rw [hs1, hcrF, hc1]; simp [upd]
    obtain ⟨o2, ho2⟩ : ∃ o2, o2 = stepFile env cfg f (s1.fsOut f) (s1.cacheOut f) false :=
      ⟨_, rfl⟩
    rw [← ho2]
    have ho2b : o2 = stepFile env cfg f o.entry o.centry false := by
      rw [ho2, hsf, hsc]
    obtain ⟨e1, e2, e3, e4, e5, e6, e7, e8⟩ :=
      stepFile_restable env cfg f hE hFmt (fs f) (cache f) o o2 ho ho2b
    obtain ⟨s2, hs2⟩ : ∃ s, s = runFiles env cfg false rest s1.fsOut s1.cacheOut := ⟨_, rfl⟩
    obtain ⟨i1, i2, i3, i4, i5, i6, i7, i8, i9⟩ := ih hnd2 fs1 c1 s1 s2 hs1 (by rw [hs2, hs1])
    have hup1 : ∀ q, upd s1.fsOut f o2.entry q = s1.fsOut q := by
      intro q
      by_cases hq : q = f
      · subst hq; simp [upd, e1, hsf]
      · simp [upd, hq]
    have hup2 : ∀ q, upd s1.cacheOut f o2.centry q = s1.cacheOut q := by
      intro q
      by_cases hq : q = f
      · subst hq; simp [upd, e2, hsc]
      · simp [upd, hq]
    obtain ⟨c1s, c2s, c3s, c4s, c5s⟩ := runFiles_congr env cfg false rest
      (upd s1.fsOut f o2.entry) (upd s1.cacheOut f o2.centry)
      s1.fsOut s1.cacheOut hup1 hup2
    rw [← hs2] at c1s c2s c3s c4s c5s
    refine ⟨?_, ?_, ?_, ?_, ?_, ?_, ?_, ?_, ?_⟩
    · rw [e8, i1]; rfl
    · rw [e7, c3s, i2]; rfl
    · rw [e3, c1s, i3]
    · rw [e4, c1s, i4]
    · rw [e5, c1s, i5]; omega
    · rw [e6, c1s, i6]
    · rw [c1s, i7]
    · intro q; rw [c4s q, i8 q]
    · intro q; rw [c5s q, i9 q]

/-! Concrete instances used by witnesses and counterexamples. -/

/-- An extension environment in which no registered listener ever throws. -/
def benignEmitter : Ev → Except JsError Unit := fun _ => .ok ()

/-- A standard configuration for concrete runs. -/
def cfgStd : Cfg := { maxFileSize := 100, cacheVersion := "1.0.0", configHash := "CH" }

/-- The empty cache map. -/
def cacheEmpty : String → Option CacheEntry := fun _ => none

/-- Decides whether an effect is a content read. -/
def isReadOp : Op → Bool
  | .readOp _ => true
  | _ => false

/-- Decides whether an effect is a recovery-file write. -/
def isRecoveryOp : Op → Bool
  | .recoveryWrite _ _ => true
  | _ => false

/-- Helper for claim C1: on a cache miss the file is never counted as
skipped, whatever the formatter and dry-run mode do. -/
theorem stepFile_miss_not_skipped (env : Env) (cfg : Cfg) (file : String)
    (info : FileInfo) (cE : Option CacheEntry) (dryRun : Bool) (h : Option String)
    (hE : ∀ ev, env.emitter ev = .ok ())
    (hv : (validateFile env cfg file info).1 = .ok h)
    (hmiss : hitB cE h info.mtime = false) :
    (stepFile env cfg file (some info) cE dryRun).skippedC = 0 := by
  match dryRun with
  | true => rw [stepFile_dry_miss env cfg file info cE h hE hv hmiss]
  | false =>
    rcases hf : env.formatF info.content with e | t
    · rw [stepFile_format_error env cfg file info cE h e hE hv hmiss hf]
    · by_cases hct : info.content = t
      · rw [← hct] at hf
        rw [stepFile_unchanged env cfg file info cE h hE hv hmiss hf]
      · rw [stepFile_formatted env cfg file info cE h t hE hv hmiss hf hct]

/-- C1 (amended): when no extension listener throws, a file that exists on
disk is counted `skipped` if and only if it passes validation and has a
cached entry whose stored hash equals the fingerprint computed during
validation and whose stored mtime equals the file's current modification
time.  A file that fails validation is counted `invalid` and is never
skipped, even when its cached entry matches both values. -/
theorem C1_skip_iff_hash_and_mtime (env : Env) (cfg : Cfg) (file : String)
    (info : FileInfo) (cE : Option CacheEntry) (dryRun : Bool)
    (hE : ∀ ev, env.emitter ev = .ok ()) :
    (stepFile env cfg file (some info) cE dryRun).skippedC = 1 ↔
      (∃ h e, (validateFile env cfg file info).1 = .ok h ∧ cE = some e ∧
        e.hash = h ∧ e.mtime = info.mtime) := by
  rcases hv : (validateFile env cfg file info).1 with h | r
  · by_cases hhit : hitB cE h info.mtime = true
    · match cE with
      | none => simp [hitB] at hhit
      | some ce =>
        simp only [hitB, Bool.and_eq_true, beq_iff_eq] at hhit
        rw [stepFile_cache_hit env cfg file info ce dryRun h hE hv hhit.1 hhit.2]
        exact iff_of_true rfl ⟨h, ce, rfl, rfl, hhit.1, hhit.2⟩
    · rw [Bool.not_eq_true] at hhit
      rw [stepFile_miss_not_skipped env cfg file info cE dryRun h hE hv hhit]
      refine iff_of_false (by simp) ?_
      rintro ⟨h2, e2, hv2, rfl, hh2, hm2⟩
      cases hv2
      simp [hitB, hh2, hm2] at hhit
  · rw [stepFile_validate_bad env cfg file info cE dryRun r hE hv]
    refine iff_of_false (by simp) ?_
    rintro ⟨h2, e2, hv2, _⟩
    cases hv2

/-- A benign environment whose validators accept everything, with an
identity fingerprint and an identity formatter. -/
def envJsOk : Env :=
  { hashF := fun s => s, formatF := fun s => .ok s,
    jsonP := fun _ => .ok (), acornP := fun _ => .ok (),
    emitter := benignEmitter, now := 9 }

/-- Witness for C1: a valid file whose cached entry matches both the
fingerprint and the mtime, where the equivalence is decided concretely. -/
theorem C1_skip_iff_hash_and_mtime_witness :
    ((stepFile envJsOk cfgStd "a.js" (some { content := "x", mtime := 7 })
      (some { hash := some "x", mtime := 7 }) false).skippedC = 1 ↔
      (∃ h e, (validateFile envJsOk cfgStd "a.js" { content := "x", mtime := 7 }).1 = .ok h ∧
        (some { hash := some "x", mtime := 7 } : Option CacheEntry) = some e ∧
        e.hash = h ∧ e.mtime = 7)) :=
  C1_skip_iff_hash_and_mtime envJsOk cfgStd "a.js" { content := "x", mtime := 7 }
    (some { hash := some "x", mtime := 7 }) false (fun _ => rfl)

/-- A benign environment whose JSON validator rejects every input. -/
def envJsonBad : Env :=
  { hashF := fun s => s, formatF := fun s => .ok s,
    jsonP := fun _ => .error { name := "SyntaxError", message := "Unexpected token r" },
    acornP := fun _ => .ok (), emitter := benignEmitter, now := 9 }

/-- Counterexample to C1 as stated: a syntactically invalid `.json` file
whose cached entry matches both the current fingerprint and the current
mtime is classified invalid, not skipped, so the claimed equivalence
fails at this input. -/
theorem C1_counterexample :
    ¬ (((stepFile envJsonBad cfgStd "b.json" (some { content := "br", mtime := 5 })
        (some { hash := some "br", mtime := 5 }) false).skippedC = 1) ↔
      (some (envJsonBad.hashF "br") = some "br" ∧ (5 : Nat) = 5)) := by
  decide

/-- An environment whose formatter appends a character, so formatting
always rewrites the file. -/
def envAppendBang : Env :=
  { hashF := fun s => s, formatF := fun s => .ok (s ++ "!"),
    jsonP := fun _ => .ok (), acornP := fun _ => .ok (),
    emitter := benignEmitter, now := 9 }

/-- A `format:before` extension that rewrites the in-memory content. -/
def c2Rewriter : FileData → FileData := fun d => { d with content := "X" }

/-- A second `format:before` extension, registered later, that appends to
whatever content it observes. -/
def c2Appender : FileData → FileData := fun d => { d with content := d.content ++ "Z" }

/-- C2 (code bug): the later-registered listener does observe the earlier
listener's mutation (`emitDispatch` composes them in order), but
`processFiles` formats and writes the captured local `originalContent`,
not the mutated payload: with a listener rewriting the content of `a.js`
from "y" to "X" and a formatter appending "!", the file ends up
containing "y!" on disk, while the spec-mandated result — the formatter
applied to the mutated content — is "X!".  The payload the source emits
(`{ file, originalContent }`) is a fresh object literal never read again,
so no extension rewrite can reach the formatter. -/
theorem C2_code_eval :
    (stepFile envAppendBang cfgStd "a.js" (some { content := "y", mtime := 3 })
      none false).entry = some { content := "y!", mtime := 9 } ∧
    emitDispatch [c2Rewriter, c2Appender] { file := "a.js", content := "y" } =
      { file := "a.js", content := "XZ" } ∧
    envAppendBang.formatF (specFormatInput [c2Rewriter] { file := "a.js", content := "y" }) =
      .ok "X!" ∧
    ("y!" : String) ≠ "X!" := by
  refine ⟨rfl, rfl, rfl, by decide⟩

/-- An environment whose formatter throws on every input. -/
def envFormatBoom : Env :=
  { hashF := fun s => s,
    formatF := fun _ => .error { name := "Error", message := "boom" },
    jsonP := fun _ => .ok (), acornP := fun _ => .ok (),
    emitter := benignEmitter, now := 9 }

/-- C3 (amended): when a per-file attempt ends with an error thrown out of
the try block and the original content had been read and is non-empty,
the original content is written to the recovery location and the
`file:recovery:saved` event emitted strictly before the `format:error`
emission and the end of the attempt, and the error is pushed onto the
returned error list.  Validation failures return without throwing, and
an empty original content is skipped by the JavaScript truthiness test,
so neither produces a recovery file. -/
theorem C3_recovery_on_thrown_failure (env : Env) (cfg : Cfg) (file : String)
    (fsE : Option FileInfo) (cE : Option CacheEntry) (dryRun : Bool)
    (e : JsError) (s : String)
    (hth : (tryBody env cfg file fsE cE dryRun).thrown = some e)
    (hoc : (tryBody env cfg file fsE cE dryRun).originalContent = some s)
    (hs : s ≠ "") :
    (stepFile env cfg file fsE cE dryRun).trace =
      (tryBody env cfg file fsE cE dryRun).trace ++
        [.recoveryWrite file s, .emitOp (.recoverySaved file),
         .emitOp (.formatError file e.message), .emitOp (.fileProcessed file)] ∧
    (file, e) ∈ (stepFile env cfg file fsE cE dryRun).errs := by
  unfold stepFile catchFinally
  rw [hth, hoc]
  rcases hfe : env.emitter (.formatError file e.message) with e2 | u <;>
    rcases hfp : env.emitter (.fileProcessed file) with e3 | u3 <;>
      simp [hfe, hfp, hs]

/-- Witness for C3: a formatter that throws on `a.js` (content "y") leads
to a recovery write of "y" before the `format:error` emission, and the
error appears in the error list. -/
theorem C3_recovery_witness :
    ((tryBody envFormatBoom cfgStd "a.js" (some { content := "y", mtime := 3 })
        none false).thrown = some { name := "Error", message := "boom" } ∧
      ("y" : String) ≠ "") ∧
    ((stepFile envFormatBoom cfgStd "a.js" (some { content := "y", mtime := 3 })
        none false).trace =
      (tryBody envFormatBoom cfgStd "a.js" (some { content := "y", mtime := 3 })
        none false).trace ++
        [.recoveryWrite "a.js" "y", .emitOp (.recoverySaved "a.js"),
         .emitOp (.formatError "a.js" "boom"),
         .emitOp (.fileProcessed "a.js")] ∧
      (("a.js", { name := "Error", message := "boom" }) : String × JsError) ∈
        (stepFile envFormatBoom cfgStd "a.js" (some { content := "y", mtime := 3 })
          none false).errs) :=
  ⟨⟨by decide, by decide⟩,
    C3_recovery_on_thrown_failure envFormatBoom cfgStd "a.js"
      (some { content := "y", mtime := 3 }) none false
      { name := "Error", message := "boom" } "y" (by decide) (by decide) (by decide)⟩

/-- Counterexample to C3 as stated: a validation failure (invalid JSON in
`b.json`) fails the attempt after the original content "br" was
successfully read, yet no recovery write of any content occurs in the
attempt's trace. -/
theorem C3_counterexample :
    ¬ ((stepFile envJsonBad cfgStd "b.json" (some { content := "br", mtime := 5 })
          none false).errs ≠ [] →
       (tryBody envJsonBad cfgStd "b.json" (some { content := "br", mtime := 5 })
          none false).originalContent = some "br" →
       (stepFile envJsonBad cfgStd "b.json" (some { content := "br", mtime := 5 })
          none false).trace.any isRecoveryOp = true) := by
  decide

/-- C4 (amended): a file larger than `maxFileSize` is classified invalid
with the "File too large" reason and no write occurs, but its content is
read into memory exactly once — by `processFiles` itself, which reads the
file before validation; `validateFile` rejects on the stat size without a
second read. -/
theorem C4_oversize_rejected_after_single_read (env : Env) (cfg : Cfg)
    (file : String) (info : FileInfo) (cE : Option CacheEntry) (dryRun : Bool)
    (hE : ∀ ev, env.emitter ev = .ok ())
    (hbig : cfg.maxFileSize < info.content.length) :
    stepFile env cfg file (some info) cE dryRun =
      { invalidC := 1,
        errs := [(file, { name := "Error",
                          message := tooLargeReason info.content.length cfg.maxFileSize })],
        entry := some info, centry := cE,
        trace := [.statOp file, .readOp file,
          .emitOp (.validateFail file (tooLargeReason info.content.length cfg.maxFileSize)),
          .emitOp (.fileProcessed file)],
        fatal := none } ∧
    ((stepFile env cfg file (some info) cE dryRun).trace.filter isReadOp).length = 1 := by
  have hv := validateFile_too_large env cfg file info hbig
  have hv1 : (validateFile env cfg file info).1 =
      .bad (tooLargeReason info.content.length cfg.maxFileSize) := by rw [hv]
  have hc := stepFile_validate_bad env cfg file info cE dryRun _ hE hv1
  constructor
  · rw [hc, hv]; rfl
  · rw [hc, hv]; simp [isReadOp]

/-- A configuration with a 2-byte size limit, to exercise oversized files. -/
def cfgTiny : Cfg := { maxFileSize := 2, cacheVersion := "1.0.0", configHash := "CH" }

/-- Witness for C4: a 3-byte file against a 2-byte limit is rejected as
invalid after exactly one read. -/
theorem C4_oversize_witness :
    (cfgTiny.maxFileSize < ("aaa" : String).length) ∧
    (stepFile envJsOk cfgTiny "big.js" (some { content := "aaa", mtime := 1 })
        none false =
      { invalidC := 1,
        errs := [("big.js", { name := "Error",
                              message := tooLargeReason 3 cfgTiny.maxFileSize })],
        entry := some { content := "aaa", mtime := 1 }, centry := none,
        trace := [.statOp "big.js", .readOp "big.js",
          .emitOp (.validateFail "big.js" (tooLargeReason 3 cfgTiny.maxFileSize)),
          .emitOp (.fileProcessed "big.js")],
        fatal := none } ∧
      ((stepFile envJsOk cfgTiny "big.js" (some { content := "aaa", mtime := 1 })
        none false).trace.filter isReadOp).length = 1) :=
  ⟨by decide,
    C4_oversize_rejected_after_single_read envJsOk cfgTiny "big.js"
      { content := "aaa", mtime := 1 } none false (fun _ => rfl) (by decide)⟩

/-- Counterexample to C4 as stated: the oversized file is classified
invalid, but its content has been read into memory during the attempt —
the trace contains a read — refuting "its content is never read". -/
theorem C4_counterexample :
    ¬ ((stepFile envJsOk cfgTiny "big.js" (some { content := "aaa", mtime := 1 })
          none false).invalidC = 1 ∧
       (stepFile envJsOk cfgTiny "big.js" (some { content := "aaa", mtime := 1 })
          none false).trace.any isReadOp = false) := by
  decide

/-- The restore world of claim C5's failing input: a well-formed manifest
whose recorded fingerprint matches the archive, and a root tree with one
file. -/
def worldC5 : RestoreWorld :=
  { manifest := some { archiveHash := "H", algorithm := "sha256" },
    archive := some "AB", rootListing := ["a.js"] }

/-- C5 (code bug): on a restore whose freshly computed fingerprint matches
the manifest, the source is meant to snapshot the current tree and then
extract, but `readdir(rootDir, { recursive: true })` returns plain path
strings and `.filter(f => f.isFile())` therefore throws
`TypeError: f.isFile is not a function` on any non-empty root listing:
the call fails after the integrity check, creating no snapshot and
extracting nothing. -/
theorem C5_code_eval :
    restoreBackupModel (fun _ => "H") worldC5 "backup-1.tar.gz" =
      (.error { name := "TypeError", message := "f.isFile is not a function" },
       [ROp.readManifestOp, ROp.hashArchiveOp,
        ROp.auditOp "restoreBackup" "FAILURE"]) := by
  rfl

/-- C6 (confirmed): when the manifest file is absent, `restoreBackup`
fails with the distinct `ManifestNotFoundError` (not an integrity
mismatch, not a generic error), and its effect trace holds only the
failed manifest read and the audit-log append — no extraction, no
snapshot, no write under the root. -/
theorem C6_manifest_missing (hashF : String → String) (w : RestoreWorld)
    (filename : String) (hm : w.manifest = none) :
    restoreBackupModel hashF w filename =
      (.error (manifestNotFoundErr filename),
       [ROp.readManifestOp, ROp.auditOp "restoreBackup" "FAILURE"]) ∧
    (manifestNotFoundErr filename).name = "ManifestNotFoundError" ∧
    (manifestNotFoundErr filename).name ≠ "IntegrityMismatchError" ∧
    ROp.extractOp ∉ (restoreBackupModel hashF w filename).2 := by
  have hr : restoreBackupModel hashF w filename =
      (.error (manifestNotFoundErr filename),
       [ROp.readManifestOp, ROp.auditOp "restoreBackup" "FAILURE"]) := by
    simp [restoreBackupModel, hm, enoentRead]
  refine ⟨hr, rfl, ?_, ?_⟩
  · exact (by decide : ("ManifestNotFoundError" : String) ≠ "IntegrityMismatchError")
  · rw [hr]
    simp

/-- A restore world whose manifest file is missing. -/
def worldNoManifest : RestoreWorld :=
  { manifest := none, archive := some "AB", rootListing := ["a.js"] }

/-- Witness for C6: restoring `backup-1.tar.gz` with no manifest present. -/
theorem C6_manifest_missing_witness :
    (worldNoManifest.manifest = (none : Option Manifest)) ∧
    (restoreBackupModel (fun _ => "H") worldNoManifest "backup-1.tar.gz" =
      (.error (manifestNotFoundErr "backup-1.tar.gz"),
       [ROp.readManifestOp, ROp.auditOp "restoreBackup" "FAILURE"]) ∧
      (manifestNotFoundErr "backup-1.tar.gz").name = "ManifestNotFoundError" ∧
      (manifestNotFoundErr "backup-1.tar.gz").name ≠ "IntegrityMismatchError" ∧
      ROp.extractOp ∉ (restoreBackupModel (fun _ => "H") worldNoManifest
        "backup-1.tar.gz").2) :=
  ⟨rfl, C6_manifest_missing (fun _ => "H") worldNoManifest "backup-1.tar.gz" rfl⟩

/-- C8 (confirmed): whenever the cache file parsed from disk records a
schema version or configuration fingerprint different from the active
session's, `loadCache` discards the entire entries map — the loaded state
has an empty entries map and the session's version and fingerprint —
before any lookup can use it. -/
theorem C8_mismatch_discards_entries (cfg : Cfg) (p : DiskCache)
    (disk : Except JsError DiskCache) (hdisk : disk = .ok p)
    (hmis : p.version ≠ cfg.cacheVersion ∨ p.configHash ≠ cfg.configHash) :
    (loadCacheModel cfg disk).entries = [] ∧
    (loadCacheModel cfg disk).version = cfg.cacheVersion ∧
    (loadCacheModel cfg disk).configHash = cfg.configHash := by
  subst hdisk
  simp only [loadCacheModel]
  rw [if_pos hmis]
  exact ⟨rfl, rfl, rfl⟩

/-- A disk cache state with a stale configuration fingerprint and one
surviving entry. -/
def staleDisk : DiskCache :=
  { version := "1.0.0", configHash := "OLD",
    entries := [("a.js", { hash := some "x", mtime := 7 })] }

/-- Witness for C8: the stale disk cache is discarded wholesale. -/
theorem C8_mismatch_witness :
    ((Except.ok staleDisk : Except JsError DiskCache) = .ok staleDisk ∧
      (staleDisk.version ≠ cfgStd.cacheVersion ∨ staleDisk.configHash ≠ cfgStd.configHash)) ∧
    ((loadCacheModel cfgStd (.ok staleDisk)).entries = [] ∧
     (loadCacheModel cfgStd (.ok staleDisk)).version = cfgStd.cacheVersion ∧
     (loadCacheModel cfgStd (.ok staleDisk)).configHash = cfgStd.configHash) :=
  ⟨⟨rfl, by decide⟩, C8_mismatch_discards_entries cfgStd staleDisk _ rfl (by decide)⟩

/-- C9 (confirmed): submitting the same path a second time while the
first submission's lock is still in the table returns the very same
in-flight task (so both callers await one outcome), starts no new
underlying execution, and the first submission started exactly one
execution for that path. -/
theorem C9_second_submit_shares_execution (s : LockState) (p : String)
    (hfree : lookupLock s.locks p = none) :
    (submitFile (submitFile s p).1 p).2 = (submitFile s p).2 ∧
    (submitFile (submitFile s p).1 p).1.execs = (submitFile s p).1.execs ∧
    ((submitFile s p).1.execs.filter (fun e => e.1 == p)).length =
      (s.execs.filter (fun e => e.1 == p)).length + 1 := by
  simp [submitFile, hfree, lookupLock, List.filter_append]

/-- The empty lock table. -/
def lockEmpty : LockState := { locks := [], nextId := 0, execs := [] }

/-- Witness for C9: submitting `a.js` twice from an empty lock table. -/
theorem C9_second_submit_witness :
    (lookupLock lockEmpty.locks "a.js" = none) ∧
    ((submitFile (submitFile lockEmpty "a.js").1 "a.js").2 =
      (submitFile lockEmpty "a.js").2 ∧
    (submitFile (submitFile lockEmpty "a.js").1 "a.js").1.execs =
      (submitFile lockEmpty "a.js").1.execs ∧
    ((submitFile lockEmpty "a.js").1.execs.filter
        (fun e => e.1 == "a.js")).length =
      (lockEmpty.execs.filter (fun e => e.1 == "a.js")).length + 1) :=
  ⟨rfl, C9_second_submit_shares_execution lockEmpty "a.js" rfl⟩

/-- The wrapper `processFilesModel` only appends the cache save to the
trace (when no task escaped); counters, errors, final state and fatal
status are those of the per-file loop. -/
theorem processFilesModel_fields (env : Env) (cfg : Cfg) (files : List String)
    (fs : String → Option FileInfo) (cache : String → Option CacheEntry)
    (dryRun : Bool) :
    (processFilesModel env cfg files fs cache dryRun).stats =
      (runFiles env cfg dryRun files fs cache).stats ∧
    (processFilesModel env cfg files fs cache dryRun).errors =
      (runFiles env cfg dryRun files fs cache).errors ∧
    (processFilesModel env cfg files fs cache dryRun).fsOut =
      (runFiles env cfg dryRun files fs cache).fsOut ∧
    (processFilesModel env cfg files fs cache dryRun).cacheOut =
      (runFiles env cfg dryRun files fs cache).cacheOut ∧
    (processFilesModel env cfg files fs cache dryRun).fatal =
      (runFiles env cfg dryRun files fs cache).fatal := by
  unfold processFilesModel
  rcases hfat : (runFiles env cfg dryRun files fs cache).fatal with _ | e <;>
    simp [hfat]

/-- C7 (amended): running the pipeline twice with no intervening file
changes, no throwing listener, and a formatter whose outputs stay
non-empty, within the size limit and acceptable to the validators, makes
the second run classify every file that the first run formatted, skipped
or left unchanged as skipped, keep the invalid count of the first run,
and format zero files. -/
theorem C7_second_run_all_skipped (env : Env) (cfg : Cfg) (files : List String)
    (fs : String → Option FileInfo) (cache : String → Option CacheEntry)
    (hE : ∀ ev, env.emitter ev = .ok ())
    (hFmt : ∀ s t, env.formatF s = .ok t →
      t ≠ "" ∧ t.length ≤ cfg.maxFileSize ∧ env.jsonP t = .ok () ∧ env.acornP t = .ok ())
    (hnd : files.Nodup) (r1 r2 : RunOut)
    (h1 : r1 = processFilesModel env cfg files fs cache false)
    (h2 : r2 = processFilesModel env cfg files r1.fsOut r1.cacheOut false) :
    r2.stats.formatted = 0 ∧ r2.stats.unchanged = 0 ∧
    r2.stats.skipped = r1.stats.formatted + r1.stats.skipped + r1.stats.unchanged ∧
    r2.stats.invalid = r1.stats.invalid ∧ r2.stats.total = r1.stats.total := by
  subst h1
  subst h2
  obtain ⟨p1s, _, p1f, p1c, _⟩ := processFilesModel_fields env cfg files fs cache false
  rw [p1f, p1c, p1s]
  obtain ⟨p2s, _, _, _, _⟩ := processFilesModel_fields env cfg files
    (runFiles env cfg false files fs cache).fsOut
    (runFiles env cfg false files fs cache).cacheOut false
  rw [p2s]
  obtain ⟨_, _, i3, i4, i5, i6, i7, _, _⟩ :=
    runFiles_idem env cfg hE hFmt files hnd fs cache _ _ rfl rfl
  exact ⟨i3, i4, i5, i6, i7⟩

/-- An environment whose formatter returns the constant "K". -/
def envConstK : Env :=
  { hashF := fun s => s, formatF := fun _ => .ok "K",
    jsonP := fun _ => .ok (), acornP := fun _ => .ok (),
    emitter := benignEmitter, now := 9 }

/-- A root with the single file `a.js`. -/
def fsOneJs : String → Option FileInfo :=
  fun q => if q = "a.js" then some { content := "y", mtime := 3 } else none

/-- Witness for C7: one `a.js` formatted on the first run is skipped on
the second, with zero formatted. -/
theorem C7_second_run_witness :
    ((["a.js"] : List String).Nodup) ∧
    ((processFilesModel envConstK cfgStd ["a.js"]
        (processFilesModel envConstK cfgStd ["a.js"] fsOneJs cacheEmpty false).fsOut
        (processFilesModel envConstK cfgStd ["a.js"] fsOneJs cacheEmpty false).cacheOut
        false).stats.formatted = 0 ∧
      (processFilesModel envConstK cfgStd ["a.js"]
        (processFilesModel envConstK cfgStd ["a.js"] fsOneJs cacheEmpty false).fsOut
        (processFilesModel envConstK cfgStd ["a.js"] fsOneJs cacheEmpty false).cacheOut
        false).stats.unchanged = 0 ∧
      (processFilesModel envConstK cfgStd ["a.js"]
        (processFilesModel envConstK cfgStd ["a.js"] fsOneJs cacheEmpty false).fsOut
        (processFilesModel envConstK cfgStd ["a.js"] fsOneJs cacheEmpty false).cacheOut
        false).stats.skipped =
        (processFilesModel envConstK cfgStd ["a.js"] fsOneJs cacheEmpty false).stats.formatted +
        (processFilesModel envConstK cfgStd ["a.js"] fsOneJs cacheEmpty false).stats.skipped +
        (processFilesModel envConstK cfgStd ["a.js"] fsOneJs cacheEmpty false).stats.unchanged ∧
      (processFilesModel envConstK cfgStd ["a.js"]
        (processFilesModel envConstK cfgStd ["a.js"] fsOneJs cacheEmpty false).fsOut
        (processFilesModel envConstK cfgStd ["a.js"] fsOneJs cacheEmpty false).cacheOut
        false).stats.invalid =
        (processFilesModel envConstK cfgStd ["a.js"] fsOneJs cacheEmpty false).stats.invalid ∧
      (processFilesModel envConstK cfgStd ["a.js"]
        (processFilesModel envConstK cfgStd ["a.js"] fsOneJs cacheEmpty false).fsOut
        (processFilesModel envConstK cfgStd ["a.js"] fsOneJs cacheEmpty false).cacheOut
        false).stats.total =
        (processFilesModel envConstK cfgStd ["a.js"] fsOneJs cacheEmpty false).stats.total) :=
  ⟨by decide,
    C7_second_run_all_skipped envConstK cfgStd ["a.js"] fsOneJs cacheEmpty
      (fun _ => rfl)
      (fun s t h => by cases h; exact ⟨by decide, by decide, rfl, rfl⟩)
      (by decide) _ _ rfl rfl⟩

/-- A root with the single malformed `b.json`. -/
def fsOneJson : String → Option FileInfo :=
  fun q => if q = "b.json" then some { content := "br", mtime := 5 } else none

/-- Counterexample to C7 as stated: with one syntactically invalid
`b.json`, the second run still counts the file as invalid — not skipped
or unchanged — so "every file classified as skipped or unchanged" fails
even though zero files are formatted. -/
theorem C7_counterexample :
    ¬ ((processFilesModel envJsonBad cfgStd ["b.json"]
          (processFilesModel envJsonBad cfgStd ["b.json"] fsOneJson cacheEmpty false).fsOut
          (processFilesModel envJsonBad cfgStd ["b.json"] fsOneJson cacheEmpty false).cacheOut
          false).stats.formatted = 0 ∧
        (processFilesModel envJsonBad cfgStd ["b.json"]
          (processFilesModel envJsonBad cfgStd ["b.json"] fsOneJson cacheEmpty false).fsOut
          (processFilesModel envJsonBad cfgStd ["b.json"] fsOneJson cacheEmpty false).cacheOut
          false).stats.skipped +
        (processFilesModel envJsonBad cfgStd ["b.json"]
          (processFilesModel envJsonBad cfgStd ["b.json"] fsOneJson cacheEmpty false).fsOut
          (processFilesModel envJsonBad cfgStd ["b.json"] fsOneJson cacheEmpty false).cacheOut
          false).stats.unchanged =
        (processFilesModel envJsonBad cfgStd ["b.json"]
          (processFilesModel envJsonBad cfgStd ["b.json"] fsOneJson cacheEmpty false).fsOut
          (processFilesModel envJsonBad cfgStd ["b.json"] fsOneJson cacheEmpty false).cacheOut
          false).stats.total) := by
  decide

/-- C10 (amended): when no extension listener throws, a completed
`processFiles` run partitions its input — formatted, skipped, unchanged
and invalid sum to the total, each task incrementing exactly one — and
the error list has exactly one entry per file counted invalid. -/
theorem C10_partition_when_no_listener_throws (env : Env) (cfg : Cfg)
    (files : List String) (fs : String → Option FileInfo)
    (cache : String → Option CacheEntry) (dryRun : Bool)
    (hE : ∀ ev, env.emitter ev = .ok ()) (r : RunOut)
    (hr : r = processFilesModel env cfg files fs cache dryRun) :
    r.fatal = none ∧
    r.stats.formatted + r.stats.skipped + r.stats.unchanged + r.stats.invalid =
      r.stats.total ∧
    r.errors.length = r.stats.invalid := by
  subst hr
  obtain ⟨ps, pe, _, _, pf⟩ := processFilesModel_fields env cfg files fs cache dryRun
  rw [ps, pe, pf]
  exact runFiles_partition env cfg dryRun hE files fs cache

/-- Witness for C10: the partition at a concrete two-file run (one valid
`a.js`, one malformed `b.json`). -/
def fsTwo : String → Option FileInfo :=
  fun q => if q = "a.js" then some { content := "y", mtime := 3 }
    else if q = "b.json" then some { content := "br", mtime := 5 } else none

theorem C10_partition_witness :
    (processFilesModel envJsonBad cfgStd ["a.js", "b.json"] fsTwo cacheEmpty
      false).fatal = none ∧
    (processFilesModel envJsonBad cfgStd ["a.js", "b.json"] fsTwo cacheEmpty
      false).stats.formatted +
    (processFilesModel envJsonBad cfgStd ["a.js", "b.json"] fsTwo cacheEmpty
      false).stats.skipped +
    (processFilesModel envJsonBad cfgStd ["a.js", "b.json"] fsTwo cacheEmpty
      false).stats.unchanged +
    (processFilesModel envJsonBad cfgStd ["a.js", "b.json"] fsTwo cacheEmpty
      false).stats.invalid =
    (processFilesModel envJsonBad cfgStd ["a.js", "b.json"] fsTwo cacheEmpty
      false).stats.total ∧
    (processFilesModel envJsonBad cfgStd ["a.js", "b.json"] fsTwo cacheEmpty
      false).errors.length =
    (processFilesModel envJsonBad cfgStd ["a.js", "b.json"] fsTwo cacheEmpty
      false).stats.invalid :=
  C10_partition_when_no_listener_throws envJsonBad cfgStd ["a.js", "b.json"]
    fsTwo cacheEmpty false (fun _ => rfl) _ rfl

/-- An environment whose `file:cache:hit` listener throws. -/
def envHitBoom : Env :=
  { hashF := fun s => s, formatF := fun s => .ok s,
    jsonP := fun _ => .ok (), acornP := fun _ => .ok (),
    emitter := fun ev => match ev with
      | .cacheHit _ => .error { name := "Error", message := "listener crashed" }
      | _ => .ok (),
    now := 9 }

/-- A root with the single cached file `a.js`. -/
def fsHit : String → Option FileInfo :=
  fun q => if q = "a.js" then some { content := "x", mtime := 7 } else none

/-- A cache that matches `a.js` exactly. -/
def cacheHitMatch : String → Option CacheEntry :=
  fun q => if q = "a.js" then some { hash := some "x", mtime := 7 } else none

/-- Counterexample to C10 as stated: a `file:cache:hit` listener that
throws makes the task increment both `skipped` and (in the catch block)
`invalid`, so the completed run has the four counters summing to
total + 1. -/
theorem C10_counterexample :
    (processFilesModel envHitBoom cfgStd ["a.js"] fsHit cacheHitMatch
      false).fatal = none ∧
    ¬ ((processFilesModel envHitBoom cfgStd ["a.js"] fsHit cacheHitMatch
        false).stats.formatted +
      (processFilesModel envHitBoom cfgStd ["a.js"] fsHit cacheHitMatch
        false).stats.skipped +
      (processFilesModel envHitBoom cfgStd ["a.js"] fsHit cacheHitMatch
        false).stats.unchanged +
      (processFilesModel envHitBoom cfgStd ["a.js"] fsHit cacheHitMatch
        false).stats.invalid =
      (processFilesModel envHitBoom cfgStd ["a.js"] fsHit cacheHitMatch
        false).stats.total) := by
  exact ⟨by decide, by decide⟩
